import Mathlib

set_option autoImplicit false

namespace Hikari

/-- JSON-compatible values making up the payload dictionaries handed to model
constructors and to `update_state`. -/
inductive JSON where
  | null
  | str (s : String)
  | num (n : Int)
  | arr (elems : List JSON)
  | obj (fields : List (String × JSON))

/-- A payload dictionary: string keys to JSON-compatible values. -/
abbrev Payload := List (String × JSON)

/-- Python exceptions raised by the modelled code. -/
inductive PyError where
  | notImplementedError
  | typeError
  | valueError
  | attributeError
  | keyError
deriving DecidableEq, Repr

/-- Python `key in d` membership test on a dict. -/
def pyHasKey (p : Payload) (k : String) : Bool :=
  match p with
  | [] => false
  | (k', _) :: rest => if k' = k then true else pyHasKey rest k

/-- Python `d[key]` raw lookup; `none` when the key is absent (a `KeyError` at use sites). -/
def pyIndex (p : Payload) (k : String) : Option JSON :=
  match p with
  | [] => none
  | (k', v) :: rest => if k' = k then some v else pyIndex rest k

/-- Python `d.get(key)`: the stored value, where an absent key and a stored JSON null both
give Python `None` (modelled as `none`). -/
def pyGet (p : Payload) (k : String) : Option JSON :=
  match pyIndex p k with
  | some .null => none
  | some v => some v
  | none => none

/-- `Status` enumeration from `presences.py`: the status of a member. -/
inductive Status where
  | ONLINE
  | IDLE
  | DND
  | OFFLINE
deriving DecidableEq, Repr

/-- Python `str.upper()` on one character (ASCII letters, which cover every recognised
status name). -/
def pyCharUpper (c : Char) : Char :=
  if 97 ≤ c.toNat ∧ c.toNat ≤ 122 then Char.ofNat (c.toNat - 32) else c

/-- Python `str.upper()`. -/
def pyStrUpper (s : String) : String :=
  String.mk (s.data.map pyCharUpper)

/-- Modelled from the spec: `base.NamedEnum.from_discord_name` is not under `src/`. Per the
spec the statuses form the fixed enumeration ONLINE, IDLE, DND, OFFLINE addressed on the wire
by name, matched case-insensitively (the name is upper-cased and looked up among the member
names); any other value (null, number, list, dict or an unrecognised string) fails to cast,
modelled as `none`. -/
def Status.from_discord_name : JSON → Option Status
  | .str s =>
    match pyStrUpper s with
    | "ONLINE" => some .ONLINE
    | "IDLE" => some .IDLE
    | "DND" => some .DND
    | "OFFLINE" => some .OFFLINE
    | _ => none
  | _ => none

/-- Modelled from the spec: `transformations.try_cast(value, cast, default)` is not under
`src/`; it applies `cast` to the value and substitutes `default` whenever the cast fails.
The argument `v` is the Python value handed to the cast, `none` being Python `None` (on which
a name cast fails, yielding the default). -/
def try_cast {α : Type} (cast : JSON → Option α) (default : α) (v : Option JSON) : α :=
  match v with
  | some j => (cast j).getD default
  | none => default

/-- `ActivityType` enumeration from `presences.py`. -/
inductive ActivityType where
  | UNKNOWN
  | PLAYING
  | STREAMING
  | LISTENING
  | WATCHING
deriving DecidableEq, Repr

/-- Python `ActivityType(value)` wrapped in `try_cast(..., ActivityType)` with default
`None` as at the construction site: enum lookup by value succeeds only on the member values
-1, 0, 1, 2, 3; anything else (including an absent or null value) gives `none`. -/
def ActivityType.ofValue : Option JSON → Option ActivityType
  | some (.num n) =>
    if n = -1 then some .UNKNOWN
    else if n = 0 then some .PLAYING
    else if n = 1 then some .STREAMING
    else if n = 2 then some .LISTENING
    else if n = 3 then some .WATCHING
    else none
  | _ => none

/-- Python `int(v)`: an integer unchanged, a numeric string parsed, anything else raises. -/
def pyInt : JSON → Except PyError Int
  | .num n => .ok n
  | .str s =>
    match s.toInt? with
    | some n => .ok n
    | none => .error .valueError
  | _ => .error .typeError

/-- Modelled from the spec: `transformations.nullable_cast(value, cast)` is not under `src/`;
it returns Python `None` unchanged and otherwise applies `cast`, letting any failure
propagate. -/
def nullable_cast {α : Type} (v : Option JSON) (cast : JSON → Except PyError α) :
    Except PyError (Option α) :=
  match v with
  | none => .ok none
  | some j => (cast j).map some

/-- Modelled from the spec: `date_helpers.unix_epoch_to_ts` is not under `src/`; it turns a
millisecond unix-epoch number into a timezone-aware instant (modelled by its millisecond
value) and raises on non-numeric input. -/
def unix_epoch_to_ts : JSON → Except PyError Int
  | .num n => .ok n
  | _ => .error .typeError

/-- `ActivityTimestamps` from `presences.py`: optional start and end instants. -/
structure ActivityTimestamps where
  start : Option Int
  «end» : Option Int
deriving DecidableEq, Repr

/-- `ActivityTimestamps(payload)` constructor from `presences.py`. -/
def ActivityTimestamps.ofPayload (payload : Payload) : Except PyError ActivityTimestamps :=
  (nullable_cast (pyGet payload "start") unix_epoch_to_ts).bind fun s =>
    (nullable_cast (pyGet payload "end") unix_epoch_to_ts).map fun e => ⟨s, e⟩

/-- `ActivityTimestamps.duration` from `presences.py`: `end - start` if both are specified,
else `None`. -/
def ActivityTimestamps.duration (self : ActivityTimestamps) : Option Int :=
  match self.start, self.«end» with
  | some s, some e => some (e - s)
  | _, _ => none

/-- `ActivityTimestamps.update_state` from `presences.py`: raises `NotImplementedError`
(the spec's `UnsupportedOperation`). -/
def ActivityTimestamps.update_state (_ : ActivityTimestamps) (_ : Payload) :
    Except PyError ActivityTimestamps :=
  .error .notImplementedError

/-- `ActivityParty` from `presences.py`. -/
structure ActivityParty where
  id : Option JSON
  current_size : Option Int
  max_size : Option Int

/-- `ActivityParty(payload)` constructor from `presences.py`. -/
def ActivityParty.ofPayload (payload : Payload) : Except PyError ActivityParty :=
  (nullable_cast (pyGet payload "current_size") pyInt).bind fun cur =>
    (nullable_cast (pyGet payload "max_size") pyInt).map fun mx =>
      ⟨pyGet payload "id", cur, mx⟩

/-- `ActivityParty.update_state` from `presences.py`: raises `NotImplementedError`
(the spec's `UnsupportedOperation`). -/
def ActivityParty.update_state (_ : ActivityParty) (_ : Payload) :
    Except PyError ActivityParty :=
  .error .notImplementedError

/-- `ActivityAssets` from `presences.py`. -/
structure ActivityAssets where
  large_image : Option JSON
  large_text : Option JSON
  small_image : Option JSON
  small_text : Option JSON

/-- `ActivityAssets(payload)` constructor from `presences.py`; it only reads keys with
`.get`, so it never raises. -/
def ActivityAssets.ofPayload (payload : Payload) : ActivityAssets :=
  ⟨pyGet payload "large_image", pyGet payload "large_text",
   pyGet payload "small_image", pyGet payload "small_text"⟩

/-- `ActivityAssets.update_state` from `presences.py`: raises `NotImplementedError`
(the spec's `UnsupportedOperation`). -/
def ActivityAssets.update_state (_ : ActivityAssets) (_ : Payload) :
    Except PyError ActivityAssets :=
  .error .notImplementedError

/-- Python `nullable_cast(payload.get("flags"), ActivityFlag) or 0` from `presences.py`:
an integer flag value is kept as is (`ActivityFlag` is an `IntFlag`), absence or null gives 0,
and a non-integer raises. -/
def flagsOfValue : Option JSON → Except PyError Int
  | none => .ok 0
  | some (.num n) => .ok n
  | some _ => .error .valueError

/-- `PresenceActivity` from `presences.py`: a rich presence-style activity. -/
structure PresenceActivity where
  id : Option JSON
  name : Option JSON
  type : Option ActivityType
  url : Option JSON
  timestamps : Option ActivityTimestamps
  application_id : Option Int
  details : Option JSON
  state : Option JSON
  party : Option ActivityParty
  assets : Option ActivityAssets
  flags : Int

/-- `PresenceActivity(payload)` constructor from `presences.py`; the nested constructors
require dicts (`.get` on anything else raises `AttributeError`). -/
def PresenceActivity.ofPayload (payload : Payload) : Except PyError PresenceActivity :=
  (nullable_cast (pyGet payload "timestamps") fun j =>
      match j with
      | .obj fields => ActivityTimestamps.ofPayload fields
      | _ => .error .attributeError).bind fun timestamps =>
    (nullable_cast (pyGet payload "application_id") pyInt).bind fun application_id =>
      (nullable_cast (pyGet payload "party") fun j =>
          match j with
          | .obj fields => ActivityParty.ofPayload fields
          | _ => .error .attributeError).bind fun party =>
        (nullable_cast (pyGet payload "assets") fun j =>
            match j with
            | .obj fields => .ok (ActivityAssets.ofPayload fields)
            | _ => .error .attributeError).bind fun assets =>
          (flagsOfValue (pyGet payload "flags")).map fun flags =>
            { id := pyGet payload "id"
              name := pyGet payload "name"
              type := ActivityType.ofValue (pyGet payload "type")
              url := pyGet payload "url"
              timestamps := timestamps
              application_id := application_id
              details := pyGet payload "details"
              state := pyGet payload "state"
              party := party
              assets := assets
              flags := flags }

/-- `PresenceActivity.update_state` from `presences.py`: raises `NotImplementedError`
(the spec's `UnsupportedOperation`). -/
def PresenceActivity.update_state (_ : PresenceActivity) (_ : Payload) :
    Except PyError PresenceActivity :=
  .error .notImplementedError

/-- Iterating a Python value: a list yields its elements, a string its characters, a dict its
keys; null and numbers are not iterable. -/
def pyIter : JSON → Except PyError (List JSON)
  | .arr xs => .ok xs
  | .str s => .ok (s.toList.map fun c => .str (String.singleton c))
  | .obj fields => .ok (fields.map fun kv => .str kv.1)
  | _ => .error .typeError

/-- `PresenceActivity(a)` applied to an arbitrary iterated element: the constructor reads the
argument with `.get`, so any non-dict raises `AttributeError`. -/
def PresenceActivity.ofValue : JSON → Except PyError PresenceActivity
  | .obj fields => PresenceActivity.ofPayload fields
  | _ => .error .attributeError

/-- Python `[PresenceActivity(a) for a in payload["activities"]]` from
`Presence.update_state`; the call site guards the key with `"activities" in payload`, so the
absent-key (`KeyError`) branch is never reached there. -/
def parseActivities (v : Option JSON) : Except PyError (List PresenceActivity) :=
  match v with
  | none => .error .keyError
  | some j => (pyIter j).bind fun elems => elems.mapM PresenceActivity.ofValue

/-- Python `payload.get("client_status", EMPTY_DICT)` followed by membership tests and
`.get` calls in `Presence.update_state`: an absent key gives the empty dict, a present dict
is used as is, and a present non-dict value makes the subsequent use raise. -/
def clientStatusOf (payload : Payload) : Except PyError Payload :=
  match pyIndex payload "client_status" with
  | none => .ok []
  | some (.obj fields) => .ok fields
  | some _ => .error .typeError

/-- `Presence` from `presences.py`: activities plus the four independent status fields. -/
structure Presence where
  activities : List PresenceActivity
  status : Status
  web_status : Status
  desktop_status : Status
  mobile_status : Status

/-- `Presence.update_state(payload)` from `presences.py`: merges the partial payload,
setting only the fields whose keys are present. Python mutates `self` in place and returns
`None`; the mutation is modelled by returning the updated presence, and a raised exception by
`.error` (an exception can only arise before any field assignment completes). -/
def Presence.update_state (self : Presence) (payload : Payload) : Except PyError Presence :=
  (clientStatusOf payload).bind fun client_status =>
    (if pyHasKey payload "activities" then parseActivities (pyIndex payload "activities")
     else .ok self.activities).bind fun activities =>
      .ok { activities := activities
            status :=
              if pyHasKey payload "status" then
                try_cast Status.from_discord_name Status.OFFLINE (pyIndex payload "status")
              else self.status
            web_status :=
              if pyHasKey client_status "web" then
                try_cast Status.from_discord_name Status.OFFLINE (pyGet client_status "web")
              else self.web_status
            desktop_status :=
              if pyHasKey client_status "desktop" then
                try_cast Status.from_discord_name Status.OFFLINE (pyGet client_status "desktop")
              else self.desktop_status
            mobile_status :=
              if pyHasKey client_status "mobile" then
                try_cast Status.from_discord_name Status.OFFLINE (pyGet client_status "mobile")
              else self.mobile_status }

/-- `Presence.__init__(payload)` from `presences.py`: every field is first set to its default
(empty activities, all four statuses OFFLINE) and the payload is then merged with
`update_state`. -/
def Presence.ofPayload (payload : Payload) : Except PyError Presence :=
  Presence.update_state ⟨[], .OFFLINE, .OFFLINE, .OFFLINE, .OFFLINE⟩ payload

/-- Membership agrees with indexing: `key in d` holds exactly when `d[key]` finds a value. -/
theorem pyHasKey_eq_isSome (p : Payload) (k : String) :
    pyHasKey p k = (pyIndex p k).isSome := by
  induction p with
  | nil => rfl
  | cons kv rest ih =>
    obtain ⟨k', v⟩ := kv
    by_cases h : k' = k <;> simp [pyHasKey, pyIndex, h, ih]

/-- A successful `update_state` run presupposes a usable `client_status` value. -/
theorem clientStatus_of_update_ok (p p' : Presence) (payload : Payload)
    (h : p.update_state payload = .ok p') :
    ∃ cs, clientStatusOf payload = .ok cs := by
  unfold Presence.update_state at h
  cases hcs : clientStatusOf payload with
  | error e => rw [hcs] at h; simp [Except.bind] at h
  | ok cs => exact ⟨cs, rfl⟩

/-- Characterisation of a successful `Presence.update_state` run: each resulting field in
terms of the payload and the effective client_status dict. -/
theorem presence_update_state_ok (p p' : Presence) (payload cs : Payload)
    (hcs : clientStatusOf payload = .ok cs)
    (h : p.update_state payload = .ok p') :
    (if pyHasKey payload "activities" then parseActivities (pyIndex payload "activities")
      else .ok p.activities) = .ok p'.activities
    ∧ p'.status = (if pyHasKey payload "status" then
        try_cast Status.from_discord_name Status.OFFLINE (pyIndex payload "status")
      else p.status)
    ∧ p'.web_status = (if pyHasKey cs "web" then
        try_cast Status.from_discord_name Status.OFFLINE (pyGet cs "web")
      else p.web_status)
    ∧ p'.desktop_status = (if pyHasKey cs "desktop" then
        try_cast Status.from_discord_name Status.OFFLINE (pyGet cs "desktop")
      else p.desktop_status)
    ∧ p'.mobile_status = (if pyHasKey cs "mobile" then
        try_cast Status.from_discord_name Status.OFFLINE (pyGet cs "mobile")
      else p.mobile_status) := by
  unfold Presence.update_state at h
  rw [hcs] at h
  simp only [Except.bind] at h
  cases hacts : (if pyHasKey payload "activities" then
      parseActivities (pyIndex payload "activities") else .ok p.activities) with
  | error e => rw [hacts] at h; simp at h
  | ok acts =>
    rw [hacts] at h
    simp only [Except.bind] at h
    injection h with h
    subst h
    exact ⟨rfl, rfl, rfl, rfl, rfl⟩

/-- On an unrecognised value stored under a status key, the status cast used by
`update_state` substitutes OFFLINE. -/
theorem try_cast_pyGet_offline (cs : Payload) (k : String) (v : JSON)
    (hidx : pyIndex cs k = some v) (hv : Status.from_discord_name v = none) :
    try_cast Status.from_discord_name Status.OFFLINE (pyGet cs k) = Status.OFFLINE := by
  unfold pyGet
  rw [hidx]
  cases v <;> simp_all [try_cast, Status.from_discord_name]

/-- C1: `Presence.update_state(payload)` merges the partial payload into the existing
instance (Python mutates `self` in place and returns `None`; the mutation is modelled by the
returned presence), setting only the fields whose keys are present — `status` via the
"status" key and the web/desktop/mobile statuses via the corresponding sub-keys of the
effective "client_status" dict `cs` — and leaving every field whose key is absent at its
prior value. The witness instantiates the spec's example: updating with
`{"status": "idle"}` sets status to IDLE and leaves a DND desktop status unchanged. -/
theorem Presence.update_state_sets_only_present_fields
    (p p' : Presence) (payload cs : Payload)
    (hcs : clientStatusOf payload = .ok cs)
    (h : p.update_state payload = .ok p') :
    (pyHasKey payload "activities" = false → p'.activities = p.activities)
    ∧ (pyHasKey payload "status" = false → p'.status = p.status)
    ∧ (pyHasKey cs "web" = false → p'.web_status = p.web_status)
    ∧ (pyHasKey cs "desktop" = false → p'.desktop_status = p.desktop_status)
    ∧ (pyHasKey cs "mobile" = false → p'.mobile_status = p.mobile_status)
    ∧ (pyHasKey payload "status" = true →
        p'.status = try_cast Status.from_discord_name Status.OFFLINE (pyIndex payload "status"))
    ∧ (pyHasKey cs "web" = true →
        p'.web_status = try_cast Status.from_discord_name Status.OFFLINE (pyGet cs "web"))
    ∧ (pyHasKey cs "desktop" = true →
        p'.desktop_status = try_cast Status.from_discord_name Status.OFFLINE (pyGet cs "desktop"))
    ∧ (pyHasKey cs "mobile" = true →
        p'.mobile_status = try_cast Status.from_discord_name Status.OFFLINE (pyGet cs "mobile")) := by
  obtain ⟨ha, hs, hw, hd, hm⟩ := presence_update_state_ok p p' payload cs hcs h
  refine ⟨fun hk => ?_, fun hk => ?_, fun hk => ?_, fun hk => ?_, fun hk => ?_,
    fun hk => ?_, fun hk => ?_, fun hk => ?_, fun hk => ?_⟩
  · rw [hk] at ha; simp at ha; exact ha.symm
  · rw [hs, hk]; simp
  · rw [hw, hk]; simp
  · rw [hd, hk]; simp
  · rw [hm, hk]; simp
  · rw [hs, hk]; simp
  · rw [hw, hk]; simp
  · rw [hd, hk]; simp
  · rw [hm, hk]; simp

/-- Witness for C1: the spec's concrete example, discharged through the theorem. -/
theorem Presence.update_state_sets_only_present_fields_witness :
    Presence.update_state ⟨[], .OFFLINE, .OFFLINE, .DND, .OFFLINE⟩ [("status", .str "idle")]
      = .ok ⟨[], .IDLE, .OFFLINE, .DND, .OFFLINE⟩
    ∧ (Presence.mk [] .IDLE .OFFLINE .DND .OFFLINE).desktop_status
        = (Presence.mk [] .OFFLINE .OFFLINE .DND .OFFLINE).desktop_status
    ∧ (Presence.mk [] .IDLE .OFFLINE .DND .OFFLINE).status = .IDLE := by
  have h := Presence.update_state_sets_only_present_fields
    ⟨[], .OFFLINE, .OFFLINE, .DND, .OFFLINE⟩ ⟨[], .IDLE, .OFFLINE, .DND, .OFFLINE⟩
    [("status", .str "idle")] [] rfl rfl
  exact ⟨rfl, h.2.2.2.1 rfl, (h.2.2.2.2.2.1 rfl).trans rfl⟩

/-- C2: a `Presence` constructed from
`{"status": "online", "client_status": {"desktop": "dnd"}}` ends with status ONLINE,
desktop_status DND, web_status OFFLINE and mobile_status OFFLINE; more generally every field
whose key the construction payload does not specify takes its documented default — OFFLINE
for each status field and the empty sequence for activities — and the construction does not
raise on absent documented keys (the empty payload constructs the all-default presence). -/
theorem Presence.ofPayload_defaults
    (payload cs : Payload) (p : Presence)
    (hcs : clientStatusOf payload = .ok cs)
    (h : Presence.ofPayload payload = .ok p) :
    (pyHasKey payload "activities" = false → p.activities = [])
    ∧ (pyHasKey payload "status" = false → p.status = .OFFLINE)
    ∧ (pyHasKey cs "web" = false → p.web_status = .OFFLINE)
    ∧ (pyHasKey cs "desktop" = false → p.desktop_status = .OFFLINE)
    ∧ (pyHasKey cs "mobile" = false → p.mobile_status = .OFFLINE)
    ∧ Presence.ofPayload
        [("status", .str "online"), ("client_status", .obj [("desktop", .str "dnd")])]
        = .ok ⟨[], .ONLINE, .OFFLINE, .DND, .OFFLINE⟩
    ∧ Presence.ofPayload [] = .ok ⟨[], .OFFLINE, .OFFLINE, .OFFLINE, .OFFLINE⟩ := by
  obtain ⟨ha, hs, hw, hd, hm⟩ :=
    presence_update_state_ok ⟨[], .OFFLINE, .OFFLINE, .OFFLINE, .OFFLINE⟩ p payload cs hcs h
  refine ⟨fun hk => ?_, fun hk => ?_, fun hk => ?_, fun hk => ?_, fun hk => ?_, rfl, rfl⟩
  · rw [hk] at ha; simp at ha; exact ha
  · rw [hs, hk]; simp
  · rw [hw, hk]; simp
  · rw [hd, hk]; simp
  · rw [hm, hk]; simp

/-- Witness for C2: the defaults at the empty payload, discharged through the theorem. -/
theorem Presence.ofPayload_defaults_witness :
    (Presence.mk [] .OFFLINE .OFFLINE .OFFLINE .OFFLINE).activities = []
    ∧ (Presence.mk [] .OFFLINE .OFFLINE .OFFLINE .OFFLINE).status = .OFFLINE
    ∧ (Presence.mk [] .OFFLINE .OFFLINE .OFFLINE .OFFLINE).web_status = .OFFLINE
    ∧ (Presence.mk [] .OFFLINE .OFFLINE .OFFLINE .OFFLINE).desktop_status = .OFFLINE
    ∧ (Presence.mk [] .OFFLINE .OFFLINE .OFFLINE .OFFLINE).mobile_status = .OFFLINE := by
  have h := Presence.ofPayload_defaults [] []
    ⟨[], .OFFLINE, .OFFLINE, .OFFLINE, .OFFLINE⟩ rfl rfl
  exact ⟨h.1 rfl, h.2.1 rfl, h.2.2.1 rfl, h.2.2.2.1 rfl, h.2.2.2.2.1 rfl⟩

/-- C5: when the payload given to `Presence.update_state` contains the "activities" key, the
activities sequence is replaced wholesale by the fresh sequence of `PresenceActivity` values
constructed from the payload entries; the result is independent of the previously held
sequence (two presences with arbitrary prior activities end with the same sequence), so
activities are never merged element-wise. -/
theorem Presence.update_state_replaces_activities_wholesale
    (p p' q q' : Presence) (payload : Payload)
    (hk : pyHasKey payload "activities" = true)
    (hp : p.update_state payload = .ok p')
    (hq : q.update_state payload = .ok q') :
    parseActivities (pyIndex payload "activities") = .ok p'.activities
    ∧ q'.activities = p'.activities := by
  obtain ⟨cs, hcs⟩ := clientStatus_of_update_ok p p' payload hp
  have hap := (presence_update_state_ok p p' payload cs hcs hp).1
  have haq := (presence_update_state_ok q q' payload cs hcs hq).1
  rw [hk] at hap haq
  simp at hap haq
  refine ⟨hap, ?_⟩
  rw [hap] at haq
  injection haq with haq
  exact haq.symm

/-- Witness for C5: replacing a non-empty prior sequence by the one activity parsed from the
payload, from two different prior presences, discharged through the theorem. -/
theorem Presence.update_state_replaces_activities_wholesale_witness :
    parseActivities (pyIndex [("activities", JSON.arr [.obj []])] "activities")
      = .ok [⟨none, none, none, none, none, none, none, none, none, none, 0⟩]
    ∧ (Presence.mk [⟨none, none, none, none, none, none, none, none, none, none, 0⟩]
        .OFFLINE .OFFLINE .OFFLINE .OFFLINE).activities
      = (Presence.mk [⟨none, none, none, none, none, none, none, none, none, none, 0⟩]
        .ONLINE .OFFLINE .OFFLINE .OFFLINE).activities := by
  have h := Presence.update_state_replaces_activities_wholesale
    ⟨[⟨none, none, none, none, none, none, none, none, none, none, 99⟩],
      .ONLINE, .OFFLINE, .OFFLINE, .OFFLINE⟩
    ⟨[⟨none, none, none, none, none, none, none, none, none, none, 0⟩],
      .ONLINE, .OFFLINE, .OFFLINE, .OFFLINE⟩
    ⟨[], .OFFLINE, .OFFLINE, .OFFLINE, .OFFLINE⟩
    ⟨[⟨none, none, none, none, none, none, none, none, none, none, 0⟩],
      .OFFLINE, .OFFLINE, .OFFLINE, .OFFLINE⟩
    [("activities", JSON.arr [.obj []])] rfl rfl rfl
  exact ⟨h.1, h.2⟩

/-- C10: whenever `update_state` (and hence also construction, whose `__init__` delegates to
`update_state` on the all-default instance) sees a present "status" value, or a present
"web"/"desktop"/"mobile" value inside the effective "client_status" dict `cs`, that is not a
recognised status name — including null and non-strings, on which the name cast fails — the
corresponding field is set to OFFLINE instead of an error being raised; every status field
therefore always holds a member of the `Status` enumeration (by the type of `Presence`). -/
theorem Presence.unrecognized_status_becomes_offline
    (p p' : Presence) (payload cs : Payload)
    (hcs : clientStatusOf payload = .ok cs)
    (h : p.update_state payload = .ok p' ∨ Presence.ofPayload payload = .ok p') :
    (∀ v, pyIndex payload "status" = some v → Status.from_discord_name v = none →
      p'.status = .OFFLINE)
    ∧ (∀ v, pyIndex cs "web" = some v → Status.from_discord_name v = none →
      p'.web_status = .OFFLINE)
    ∧ (∀ v, pyIndex cs "desktop" = some v → Status.from_discord_name v = none →
      p'.desktop_status = .OFFLINE)
    ∧ (∀ v, pyIndex cs "mobile" = some v → Status.from_discord_name v = none →
      p'.mobile_status = .OFFLINE)
    ∧ Status.from_discord_name .null = none
    ∧ (∀ n : Int, Status.from_discord_name (.num n) = none) := by
  have hupd : ∃ q : Presence, q.update_state payload = .ok p' := by
    cases h with
    | inl h => exact ⟨p, h⟩
    | inr h => exact ⟨⟨[], .OFFLINE, .OFFLINE, .OFFLINE, .OFFLINE⟩, h⟩
  obtain ⟨q, hq⟩ := hupd
  obtain ⟨ha, hs, hw, hd, hm⟩ := presence_update_state_ok q p' payload cs hcs hq
  refine ⟨fun v hv hn => ?_, fun v hv hn => ?_, fun v hv hn => ?_, fun v hv hn => ?_,
    rfl, fun n => rfl⟩
  · have hk : pyHasKey payload "status" = true := by
      rw [pyHasKey_eq_isSome, hv]; rfl
    rw [hs, hk, if_pos rfl, hv]
    cases v <;> simp_all [try_cast, Status.from_discord_name]
  · have hk : pyHasKey cs "web" = true := by rw [pyHasKey_eq_isSome, hv]; rfl
    rw [hw, hk, if_pos rfl]
    exact try_cast_pyGet_offline cs "web" v hv hn
  · have hk : pyHasKey cs "desktop" = true := by rw [pyHasKey_eq_isSome, hv]; rfl
    rw [hd, hk, if_pos rfl]
    exact try_cast_pyGet_offline cs "desktop" v hv hn
  · have hk : pyHasKey cs "mobile" = true := by rw [pyHasKey_eq_isSome, hv]; rfl
    rw [hm, hk, if_pos rfl]
    exact try_cast_pyGet_offline cs "mobile" v hv hn

/-- Witness for C10: an unrecognised string status, a null web status and a numeric desktop
status all collapse to OFFLINE, discharged through the theorem. -/
theorem Presence.unrecognized_status_becomes_offline_witness :
    (Presence.mk [] .OFFLINE .OFFLINE .OFFLINE .ONLINE).status = .OFFLINE
    ∧ (Presence.mk [] .OFFLINE .OFFLINE .OFFLINE .ONLINE).web_status = .OFFLINE
    ∧ (Presence.mk [] .OFFLINE .OFFLINE .OFFLINE .ONLINE).desktop_status = .OFFLINE := by
  have h := Presence.unrecognized_status_becomes_offline
    ⟨[], .ONLINE, .ONLINE, .ONLINE, .ONLINE⟩
    ⟨[], .OFFLINE, .OFFLINE, .OFFLINE, .ONLINE⟩
    [("status", .str "weird"),
     ("client_status", .obj [("web", .null), ("desktop", .num 3)])]
    [("web", .null), ("desktop", .num 3)]
    rfl (Or.inl rfl)
  exact ⟨h.1 (.str "weird") rfl rfl, h.2.1 .null rfl rfl, h.2.2.1 (.num 3) rfl rfl⟩

/-- C3: for the activity kinds `PresenceActivity`, `ActivityParty`, `ActivityAssets` and
`ActivityTimestamps`, invoking `update_state` with any payload always fails with
`NotImplementedError` (the source's spelling of the spec's `UnsupportedOperation`): these
kinds support full reconstruction from a payload only, never an in-place partial merge. -/
theorem activity_kinds_update_state_unsupported :
    (∀ (a : PresenceActivity) (payload : Payload),
      a.update_state payload = .error .notImplementedError)
    ∧ (∀ (a : ActivityParty) (payload : Payload),
      a.update_state payload = .error .notImplementedError)
    ∧ (∀ (a : ActivityAssets) (payload : Payload),
      a.update_state payload = .error .notImplementedError)
    ∧ (∀ (a : ActivityTimestamps) (payload : Payload),
      a.update_state payload = .error .notImplementedError) :=
  ⟨fun _ _ => rfl, fun _ _ => rfl, fun _ _ => rfl, fun _ _ => rfl⟩

/-- C4: `ActivityTimestamps.duration` is defined (equal to end minus start) iff both start
and end are present; when either is absent it is `none` — never a default zero and never an
error (`duration` is total); in particular an instance with only start set has no
duration. -/
theorem ActivityTimestamps.duration_defined_iff (t : ActivityTimestamps) :
    (t.duration.isSome = true ↔ (t.start.isSome = true ∧ t.«end».isSome = true))
    ∧ (∀ s e, t.start = some s → t.«end» = some e → t.duration = some (e - s))
    ∧ (t.start.isSome = false ∨ t.«end».isSome = false → t.duration = none)
    ∧ (ActivityTimestamps.mk (some 0) none).duration = none := by
  obtain ⟨s, e⟩ := t
  cases s <;> cases e <;> simp [ActivityTimestamps.duration]

/-- Witness for C4: a fully specified instance has duration end minus start, discharged
through the theorem. -/
theorem ActivityTimestamps.duration_defined_iff_witness :
    (ActivityTimestamps.mk (some 3) (some 10)).duration = some 7
    ∧ (ActivityTimestamps.mk (some 5) none).duration = none := by
  have h := ActivityTimestamps.duration_defined_iff ⟨some 3, some 10⟩
  have h2 := ActivityTimestamps.duration_defined_iff ⟨some 5, none⟩
  exact ⟨by simpa using h.2.1 3 10 rfl rfl, h2.2.2.1 (Or.inr rfl)⟩

/-- A dataclass field of `fabric.py` whose default is the `NotImplemented` sentinel. -/
inductive DataclassField (α : Type) where
  | notImplemented
  | value (v : α)

/-- `Fabric` from `fabric.py`: one event handler, one state registry, and a dict mapping
optional shard ids to running gateway clients; the collaborator types (event handler, state
registry, gateway client) live outside this core and are left abstract. `event_handler` and
`state_registry` default to `NotImplemented`; `gateways` is declared with
`dataclasses.field(default_factory=dict)`, so its default is the empty dict. -/
structure Fabric (EH SR GW : Type) where
  event_handler : DataclassField EH := .notImplemented
  state_registry : DataclassField SR := .notImplemented
  gateways : List (Option Int × GW) := []

/-- `Fabric()` constructed with every default. -/
def Fabric.new (EH SR GW : Type) : Fabric EH SR GW := {}

/-- Dict lookup on the gateways mapping, keyed by optional shard id. -/
def Fabric.getGateway {EH SR GW : Type} (f : Fabric EH SR GW) (shard_id : Option Int) :
    Option GW :=
  match f.gateways.find? (fun kv => kv.1 = shard_id) with
  | some kv => some kv.2
  | none => none

/-- Counterexample for C6: a newly constructed `Fabric` has an empty gateways mapping — in
particular there is no gateway stored under the `None` key — refuting the claim that the
mapping defaults to one shard under the `None` key. -/
theorem Fabric.new_gateways_no_none_shard_counterexample :
    (Fabric.new Unit Unit Unit).gateways = []
    ∧ (Fabric.new Unit Unit Unit).getGateway none = none
    ∧ (Fabric.new Unit Unit Unit).gateways.length ≠ 1 :=
  ⟨rfl, rfl, by decide⟩

/-- C6 (amended): a `Fabric` holds one event handler, one state registry and a mapping from
optional shard id to gateway connection in which the absent/None key is the convention for
the single implicit shard; a newly constructed `Fabric` defaults its event handler and state
registry to the `NotImplemented` sentinel and its gateways mapping to the empty mapping (not
to a mapping holding one shard under the `None` key). -/
theorem Fabric.new_defaults (EH SR GW : Type) :
    (Fabric.new EH SR GW).event_handler = .notImplemented
    ∧ (Fabric.new EH SR GW).state_registry = .notImplemented
    ∧ (Fabric.new EH SR GW).gateways = [] :=
  ⟨rfl, rfl, rfl⟩

/-- Modelled from the spec: `interfaces.ISnowflake` is not under `src/` (only its tests
are). Per the spec an Identity wraps a single unsigned 64-bit integer. -/
structure ISnowflake where
  id : Nat

/-- Modelled from the spec: the ordering operators on Identities compare the raw integer
values. -/
def ISnowflake.lt (a b : ISnowflake) : Prop := a.id < b.id

/-- Modelled from the spec: the service-specific epoch offset in milliseconds (the value the
test suite's expected `created_at` instant pins down). -/
def discordEpochMs : Nat := 1420070400000

/-- Modelled from the spec: `created_at` is the epoch offset plus `raw >> 22` milliseconds,
returned as a timezone-aware instant (modelled by its millisecond value). -/
def ISnowflake.created_at (s : ISnowflake) : Nat := discordEpochMs + (s.id >>> 22)

/-- Modelled from the spec: `interfaces.IModel` is not under `src/` (only its tests are).
A model type declares, per class in its ancestry, its own storage field names (`__slots__`,
first component) and its own reference-copy field names (`__copy_by_ref__`, second
component); both declarations are inherited and merged across the ancestry. -/
structure IModelType where
  ancestry : List (List String × List String)

/-- The merged, inherited storage field set (`__all_slots__`). -/
def IModelType.all_slots (t : IModelType) : List String :=
  (t.ancestry.map Prod.fst).flatten

/-- The merged, inherited reference-copy list (`__copy_by_ref__`). -/
def IModelType.copy_by_ref (t : IModelType) : List String :=
  (t.ancestry.map Prod.snd).flatten

/-- Modelled from the spec: a heap of mutable field values addressed by natural numbers. -/
def Heap (β : Type) : Type := Nat → β

/-- Modelled from the spec: a live instance — an object identity (its address, what Python
`is` compares) plus, per declared field name, the address of the value the field
references. -/
structure IModelObj where
  addr : Nat
  fieldRef : String → Nat

/-- Reading a field dereferences the heap at the field's reference. -/
def readField {β : Type} (h : Heap β) (o : IModelObj) (f : String) : β :=
  h (o.fieldRef f)

/-- Mutating the value a field references, in place. -/
def writeField {β : Type} (h : Heap β) (o : IModelObj) (f : String) (v : β) : Heap β :=
  fun a => if a = o.fieldRef f then v else h a

/-- Modelled from the spec: the object part of `IModel.copy()` — a new instance of the same
concrete type at the fresh address `newAddr`; a field in the inherited reference-copy list
shares the original's reference, every other declared field references the fresh cell
`alloc f`. -/
def IModelType.copyObj (t : IModelType) (o : IModelObj) (newAddr : Nat)
    (alloc : String → Nat) : IModelObj where
  addr := newAddr
  fieldRef := fun f => if f ∈ t.copy_by_ref then o.fieldRef f else alloc f

/-- Modelled from the spec: the heap part of `IModel.copy()` — each deep-copied field's
fresh cell is seeded with a duplicate of the value the original field currently
references. -/
def IModelType.copyHeap {β : Type} (t : IModelType) (o : IModelObj)
    (alloc : String → Nat) (h : Heap β) : Heap β :=
  fun a =>
    match (t.all_slots.filter fun x => decide (x ∉ t.copy_by_ref)).find?
        (fun x => decide (alloc x = a)) with
    | some f => h (o.fieldRef f)
    | none => h a

/-- After a copy, the heap is unchanged at every cell the original's declared fields
reference. -/
theorem copyHeap_at_orig {β : Type} (t : IModelType) (o : IModelObj)
    (alloc : String → Nat) (h : Heap β) (g : String) (hg : g ∈ t.all_slots)
    (hfresh : ∀ f ∈ t.all_slots, ∀ g' ∈ t.all_slots, alloc f ≠ o.fieldRef g') :
    t.copyHeap o alloc h (o.fieldRef g) = h (o.fieldRef g) := by
  unfold IModelType.copyHeap
  have hnone : (t.all_slots.filter fun x => decide (x ∉ t.copy_by_ref)).find?
      (fun x => decide (alloc x = o.fieldRef g)) = none := by
    rw [List.find?_eq_none]
    intro f hf
    have hf' := (List.mem_filter.mp hf).1
    simpa using hfresh f hf' g hg
  rw [hnone]

/-- After a copy, the fresh cell of a deep-copied field holds the value the original field
referenced at copy time. -/
theorem copyHeap_at_alloc {β : Type} (t : IModelType) (o : IModelObj)
    (alloc : String → Nat) (h : Heap β) (f : String)
    (hf : f ∈ t.all_slots) (hnr : f ∉ t.copy_by_ref)
    (hinj : ∀ f1 ∈ t.all_slots, ∀ f2 ∈ t.all_slots, alloc f1 = alloc f2 → f1 = f2) :
    t.copyHeap o alloc h (alloc f) = h (o.fieldRef f) := by
  unfold IModelType.copyHeap
  have hmemf : f ∈ t.all_slots.filter fun x => decide (x ∉ t.copy_by_ref) :=
    List.mem_filter.mpr ⟨hf, by simpa using hnr⟩
  cases hfind : (t.all_slots.filter fun x => decide (x ∉ t.copy_by_ref)).find?
      (fun x => decide (alloc x = alloc f)) with
  | none =>
    exfalso
    exact (List.find?_eq_none.mp hfind f hmemf) (by simp)
  | some g =>
    have hpg : alloc g = alloc f := by
      have := List.find?_some hfind
      simpa using this
    have hgmem : g ∈ t.all_slots :=
      (List.mem_filter.mp (List.mem_of_find?_eq_some hfind)).1
    have hgf : g = f := hinj g hgmem f hf hpg
    rw [hgf]

/-- C7: for Identities constructed from 64-bit raw values `ra < rb`, the first is less than
the second and its creation instant is no later: ordering by raw value is chronological. -/
theorem ISnowflake.ordering_is_chronological (ra rb : Nat)
    (hra : ra < 2 ^ 64) (hrb : rb < 2 ^ 64) (hlt : ra < rb) :
    ISnowflake.lt ⟨ra⟩ ⟨rb⟩
    ∧ ISnowflake.created_at ⟨ra⟩ ≤ ISnowflake.created_at ⟨rb⟩ := by
  refine ⟨hlt, ?_⟩
  unfold ISnowflake.created_at
  have : ra >>> 22 ≤ rb >>> 22 := by
    simpa [Nat.shiftRight_eq_div_pow] using Nat.div_le_div_right (c := 2 ^ 22) hlt.le
  exact Nat.add_le_add_left this _

/-- Witness for C7 at the raw values used by the test suite, discharged through the
theorem. -/
theorem ISnowflake.ordering_is_chronological_witness :
    ISnowflake.lt ⟨12345⟩ ⟨12346⟩
    ∧ ISnowflake.created_at ⟨12345⟩ ≤ ISnowflake.created_at ⟨12346⟩ :=
  ISnowflake.ordering_is_chronological 12345 12346 (by decide) (by decide) (by decide)

/-- C8: `copy()` produces an instance at a distinct address (`e.copy() is e` is false) whose
every declared field — in particular the Identity field the default equality contract
compares — reads equal to the original's both in the post-copy heap and against the
original's pre-copy values (`e.copy() == e` holds). `newAddr` is the fresh object address and
`alloc` the fresh cell chosen per deep-copied field; freshness and injectivity over the
declared fields model a correct allocator. -/
theorem IModel_copy_equal_but_not_identical {β : Type} (t : IModelType) (o : IModelObj)
    (h : Heap β) (newAddr : Nat) (alloc : String → Nat)
    (hnew : newAddr ≠ o.addr)
    (hfresh : ∀ f ∈ t.all_slots, ∀ g ∈ t.all_slots, alloc f ≠ o.fieldRef g)
    (hinj : ∀ f1 ∈ t.all_slots, ∀ f2 ∈ t.all_slots, alloc f1 = alloc f2 → f1 = f2)
    (o' : IModelObj) (ho' : o' = t.copyObj o newAddr alloc)
    (h' : Heap β) (hh' : h' = t.copyHeap o alloc h) :
    o'.addr ≠ o.addr
    ∧ (∀ f ∈ t.all_slots, readField h' o' f = readField h' o f)
    ∧ (∀ f ∈ t.all_slots, readField h' o' f = readField h o f) := by
  subst ho' hh'
  have origf : ∀ f ∈ t.all_slots, readField (t.copyHeap o alloc h) o f = h (o.fieldRef f) :=
    fun f hf => copyHeap_at_orig t o alloc h f hf hfresh
  have copyf : ∀ f ∈ t.all_slots,
      readField (t.copyHeap o alloc h) (t.copyObj o newAddr alloc) f = h (o.fieldRef f) := by
    intro f hf
    by_cases hc : f ∈ t.copy_by_ref
    · have heq : (t.copyObj o newAddr alloc).fieldRef f = o.fieldRef f := by
        simp [IModelType.copyObj, hc]
      unfold readField
      rw [heq]
      exact copyHeap_at_orig t o alloc h f hf hfresh
    · have heq : (t.copyObj o newAddr alloc).fieldRef f = alloc f := by
        simp [IModelType.copyObj, hc]
      unfold readField
      rw [heq]
      exact copyHeap_at_alloc t o alloc h f hf hc hinj
  exact ⟨hnew, fun f hf => (copyf f hf).trans (origf f hf).symm,
    fun f hf => (copyf f hf).trans rfl⟩

/-- Witness for C8: a one-field concrete type — the copy sits at a fresh address yet reads
equal on its declared field, discharged through the theorem. -/
theorem IModel_copy_equal_but_not_identical_witness :
    ((IModelType.mk [(["data"], [])]).copyObj (IModelObj.mk 0 fun _ => 1) 9
        (fun _ => 50)).addr ≠ (IModelObj.mk 0 fun _ => 1).addr
    ∧ readField
        ((IModelType.mk [(["data"], [])]).copyHeap (IModelObj.mk 0 fun _ => 1)
          (fun _ => 50) (fun a => a * 3))
        ((IModelType.mk [(["data"], [])]).copyObj (IModelObj.mk 0 fun _ => 1) 9
          (fun _ => 50)) "data"
      = readField
        ((IModelType.mk [(["data"], [])]).copyHeap (IModelObj.mk 0 fun _ => 1)
          (fun _ => 50) (fun a => a * 3))
        (IModelObj.mk 0 fun _ => 1) "data" := by
  have H := IModel_copy_equal_but_not_identical (β := Nat)
    ⟨[(["data"], [])]⟩ ⟨0, fun _ => 1⟩ (fun a => a * 3) 9 (fun _ => 50)
    (by decide) (by decide) (by decide) _ rfl _ rfl
  exact ⟨H.1, H.2.1 "data" (by decide)⟩

/-- C9: the copy policy. For every field name in the type's inherited, merged-across-ancestry
reference-copy list, the copy shares the original's reference, so a mutation of the
referenced value through either instance is read back through the other; for every declared
field not in that list, the copy references a fresh duplicate, so the copy starts equal but a
mutation through one instance is invisible through the other; and a name declared in any
class of the ancestry is in the merged list. -/
theorem IModel_copy_by_ref_policy {β : Type} (t : IModelType) (o : IModelObj)
    (h : Heap β) (newAddr : Nat) (alloc : String → Nat)
    (hfresh : ∀ f ∈ t.all_slots, ∀ g ∈ t.all_slots, alloc f ≠ o.fieldRef g)
    (hinj : ∀ f1 ∈ t.all_slots, ∀ f2 ∈ t.all_slots, alloc f1 = alloc f2 → f1 = f2)
    (o' : IModelObj) (ho' : o' = t.copyObj o newAddr alloc)
    (h' : Heap β) (hh' : h' = t.copyHeap o alloc h) :
    (∀ f ∈ t.copy_by_ref,
      o'.fieldRef f = o.fieldRef f
      ∧ (∀ v, readField (writeField h' o f v) o' f = v)
      ∧ (∀ v, readField (writeField h' o' f v) o f = v))
    ∧ (∀ f ∈ t.all_slots, f ∉ t.copy_by_ref →
      o'.fieldRef f ≠ o.fieldRef f
      ∧ readField h' o' f = readField h o f
      ∧ (∀ v, readField (writeField h' o' f v) o f = readField h o f)
      ∧ (∀ v, readField (writeField h' o f v) o' f = readField h o f))
    ∧ (∀ own ref c, (own, ref) ∈ t.ancestry → c ∈ ref → c ∈ t.copy_by_ref) := by
  subst ho' hh'
  refine ⟨fun f hc => ?_, fun f hf hnc => ?_, fun own ref c hanc hc => ?_⟩
  · have heq : (t.copyObj o newAddr alloc).fieldRef f = o.fieldRef f := by
      simp [IModelType.copyObj, hc]
    refine ⟨heq, fun v => ?_, fun v => ?_⟩
    · unfold readField writeField
      rw [heq]
      simp
    · unfold readField writeField
      rw [heq]
      simp
  · have heq : (t.copyObj o newAddr alloc).fieldRef f = alloc f := by
      simp [IModelType.copyObj, hnc]
    have hneq : alloc f ≠ o.fieldRef f := hfresh f hf f hf
    refine ⟨by rw [heq]; exact hneq, ?_, fun v => ?_, fun v => ?_⟩
    · unfold readField
      rw [heq]
      exact (copyHeap_at_alloc t o alloc h f hf hnc hinj).trans rfl
    · unfold readField writeField
      rw [heq, if_neg (fun hcontra => hneq hcontra.symm)]
      exact (copyHeap_at_orig t o alloc h f hf hfresh).trans rfl
    · unfold readField writeField
      rw [heq, if_neg hneq]
      exact (copyHeap_at_alloc t o alloc h f hf hnc hinj).trans rfl
  · exact List.mem_flatten.mpr ⟨ref, List.mem_map_of_mem Prod.snd hanc, hc⟩

/-- Witness for C9 at a two-class hierarchy with one inherited shared field and one
deep-copied field, discharged through the theorem. -/
theorem IModel_copy_by_ref_policy_witness :
    readField
      (writeField
        ((IModelType.mk [(["a"], ["a"]), (["b"], [])]).copyHeap
          (IModelObj.mk 0 fun f => if f = "a" then 1 else 2)
          (fun f => if f = "a" then 10 else 20) (fun a => a + 100))
        (IModelObj.mk 0 fun f => if f = "a" then 1 else 2) "a" 42)
      ((IModelType.mk [(["a"], ["a"]), (["b"], [])]).copyObj
        (IModelObj.mk 0 fun f => if f = "a" then 1 else 2) 5
        (fun f => if f = "a" then 10 else 20)) "a"
      = 42
    ∧ readField
        (writeField
          ((IModelType.mk [(["a"], ["a"]), (["b"], [])]).copyHeap
            (IModelObj.mk 0 fun f => if f = "a" then 1 else 2)
            (fun f => if f = "a" then 10 else 20) (fun a => a + 100))
          ((IModelType.mk [(["a"], ["a"]), (["b"], [])]).copyObj
            (IModelObj.mk 0 fun f => if f = "a" then 1 else 2) 5
            (fun f => if f = "a" then 10 else 20)) "b" 7)
        (IModelObj.mk 0 fun f => if f = "a" then 1 else 2) "b"
      = readField (fun a => a + 100) (IModelObj.mk 0 fun f => if f = "a" then 1 else 2) "b"
    ∧ "a" ∈ (IModelType.mk [(["a"], ["a"]), (["b"], [])]).copy_by_ref := by
  have H := IModel_copy_by_ref_policy (β := Nat)
    ⟨[(["a"], ["a"]), (["b"], [])]⟩
    ⟨0, fun f => if f = "a" then 1 else 2⟩
    (fun a => a + 100) 5 (fun f => if f = "a" then 10 else 20)
    (by decide) (by decide) _ rfl _ rfl
  exact ⟨(H.1 "a" (by decide)).2.1 42,
    (H.2.1 "b" (by decide) (by decide)).2.2.1 7,
    H.2.2 ["a"] ["a"] "a" (by decide) (by decide)⟩

end Hikari
